import Mathlib

set_option maxRecDepth 100000

/-!
Verification of the OAuth 1.0a request signer and request plumbing of the
fatsecret-proxy repository.  The JavaScript sources (src/api/barcode.js and
the revisions in src/unnamed) are shallowly embedded: JavaScript strings are
Lean `String`s (sequences of Unicode scalar values), byte strings are
`List Nat` with every element below 256, and the Node `crypto` primitives
(HMAC-SHA1, base64) are implemented directly so that every definition is
executable.
-/

namespace FatSecretProxy

/-! ## Bytes, hex digits and UTF-8 -/

/-- Uppercase hexadecimal digit table (digit characters for 0-15). -/
def hexDigitTable (m : Nat) : Char :=
  match m with
  | 0 => '0' | 1 => '1' | 2 => '2' | 3 => '3' | 4 => '4'
  | 5 => '5' | 6 => '6' | 7 => '7' | 8 => '8' | 9 => '9'
  | 10 => 'A' | 11 => 'B' | 12 => 'C' | 13 => 'D' | 14 => 'E' | _ => 'F'

/-- Uppercase hexadecimal digit of the low four bits of `n`. -/
def hexDigitUpper (n : Nat) : Char := hexDigitTable (n % 16)

/-- Lowercase hexadecimal digit table (used by Node `Buffer.toString` with
the hex encoding, which emits lowercase digits). -/
def hexDigitTableLower (m : Nat) : Char :=
  match m with
  | 0 => '0' | 1 => '1' | 2 => '2' | 3 => '3' | 4 => '4'
  | 5 => '5' | 6 => '6' | 7 => '7' | 8 => '8' | 9 => '9'
  | 10 => 'a' | 11 => 'b' | 12 => 'c' | 13 => 'd' | 14 => 'e' | _ => 'f'

/-- Lowercase hex rendering of a byte list, as produced by Node
`buffer.toString` with the hex encoding. -/
def bytesToHexLower (bs : List Nat) : String :=
  String.mk ((bs.map (fun b => [hexDigitTableLower (b / 16 % 16), hexDigitTableLower (b % 16)])).flatten)

/-- UTF-8 bytes of one Unicode scalar value. -/
def utf8Bytes (c : Char) : List Nat :=
  let n := c.toNat
  if n < 128 then [n]
  else if n < 2048 then [192 + n / 64, 128 + n % 64]
  else if n < 65536 then [224 + n / 4096, 128 + n / 64 % 64, 128 + n % 64]
  else [240 + n / 262144, 128 + n / 4096 % 64, 128 + n / 64 % 64, 128 + n % 64]

/-- UTF-8 byte sequence of a string (Node encodes strings as UTF-8 before
hashing them, and `encodeURIComponent` escapes the UTF-8 bytes). -/
def strUtf8 (s : String) : List Nat := (s.data.map utf8Bytes).flatten

/-! ## SHA-1 (FIPS 180-4), HMAC (RFC 2104) and base64, as used by
`crypto.createHmac("sha1", key).update(base).digest("base64")` -/

/-- Truncation to a 32-bit word. -/
def w32 (n : Nat) : Nat := n % 4294967296

/-- Left rotation of a 32-bit word by `k` bits. -/
def rotl32 (k x : Nat) : Nat := w32 ((x <<< k) ||| (x >>> (32 - k)))

/-- Big-endian 32-bit words from a byte list. -/
def bytesToWords : List Nat → List Nat
  | a :: b :: c :: d :: rest => (((a * 256 + b) * 256 + c) * 256 + d) :: bytesToWords rest
  | _ => []

/-- Big-endian bytes of a 32-bit word. -/
def wordToBytes (x : Nat) : List Nat :=
  [x / 16777216 % 256, x / 65536 % 256, x / 256 % 256, x % 256]

/-- Big-endian 8-byte rendering of a length in bits. -/
def natToBytes8 (n : Nat) : List Nat := wordToBytes (n / 4294967296) ++ wordToBytes n

/-- SHA-1 padding: append the 0x80 byte, zero bytes up to 56 mod 64, then the
message bit length as 8 big-endian bytes. -/
def sha1PadBytes (msg : List Nat) : List Nat :=
  msg ++ 128 :: List.replicate ((119 - msg.length % 64) % 64) 0 ++ natToBytes8 (8 * msg.length)

/-- Message-schedule extension: append `count` further words, each the
1-bit rotation of the xor of the words 3, 8, 14 and 16 positions back. -/
def sha1ExtendAux (w : List Nat) : Nat → List Nat
  | 0 => w
  | k + 1 =>
    let n := w.length
    sha1ExtendAux
      (w ++ [rotl32 1 (w.getD (n - 3) 0 ^^^ w.getD (n - 8) 0 ^^^ w.getD (n - 14) 0 ^^^ w.getD (n - 16) 0)]) k

/-- Working state of the SHA-1 compression function. -/
structure Sha1State where
  a : Nat
  b : Nat
  c : Nat
  d : Nat
  e : Nat
deriving DecidableEq

/-- Round function of SHA-1. -/
def sha1F (i b c d : Nat) : Nat :=
  if i < 20 then (b &&& c) ||| ((b ^^^ 4294967295) &&& d)
  else if i < 40 then b ^^^ c ^^^ d
  else if i < 60 then (b &&& c) ||| (b &&& d) ||| (c &&& d)
  else b ^^^ c ^^^ d

/-- Round constants of SHA-1. -/
def sha1K (i : Nat) : Nat :=
  if i < 20 then 1518500249
  else if i < 40 then 1859775393
  else if i < 60 then 2400959708
  else 3395469782

/-- One SHA-1 round. -/
def sha1Round (w : List Nat) (i : Nat) (s : Sha1State) : Sha1State :=
  ⟨w32 (rotl32 5 s.a + sha1F i s.b s.c s.d + s.e + sha1K i + w.getD i 0),
   s.a, rotl32 30 s.b, s.c, s.d⟩

/-- Iterate `count` SHA-1 rounds starting at round index `i`. -/
def sha1RoundsAux (w : List Nat) (i : Nat) (s : Sha1State) : Nat → Sha1State
  | 0 => s
  | k + 1 => sha1RoundsAux w (i + 1) (sha1Round w i s) k

/-- Compress one 64-byte chunk into the running state. -/
def sha1Chunk (h : Sha1State) (chunk : List Nat) : Sha1State :=
  let w := sha1ExtendAux (bytesToWords chunk) 64
  let s := sha1RoundsAux w 0 h 80
  ⟨w32 (h.a + s.a), w32 (h.b + s.b), w32 (h.c + s.c), w32 (h.d + s.d), w32 (h.e + s.e)⟩

/-- Split a byte list into 64-byte chunks. -/
def chunks64 (l : List Nat) : List (List Nat) :=
  if h : l = [] then [] else l.take 64 :: chunks64 (l.drop 64)
termination_by l.length
decreasing_by
  simp only [List.length_drop]
  have : 0 < l.length := List.length_pos.mpr h
  omega

/-- SHA-1 digest (20 bytes) of a byte list. -/
def sha1 (msg : List Nat) : List Nat :=
  let f := (chunks64 (sha1PadBytes msg)).foldl sha1Chunk
    ⟨1732584193, 4023233417, 2562383102, 271733878, 3285377520⟩
  wordToBytes f.a ++ wordToBytes f.b ++ wordToBytes f.c ++ wordToBytes f.d ++ wordToBytes f.e

/-- HMAC-SHA1 (RFC 2104): keys longer than the 64-byte block are hashed,
the key is zero-padded to 64 bytes, and the digest is
`sha1(key xor opad ++ sha1(key xor ipad ++ msg))`. -/
def hmacSha1 (key msg : List Nat) : List Nat :=
  let k0 := if key.length > 64 then sha1 key else key
  let kp := k0 ++ List.replicate (64 - k0.length) 0
  sha1 ((kp.map (fun b => b ^^^ 92)) ++ sha1 ((kp.map (fun b => b ^^^ 54)) ++ msg))

/-- Standard base64 alphabet. -/
def base64Alphabet : List Char :=
  "ABCDEFGHIJKLMNOPQRSTUVWXYZabcdefghijklmnopqrstuvwxyz0123456789+/".data

/-- Character for a 6-bit group. -/
def b64Char (n : Nat) : Char := base64Alphabet.getD n 'A'

/-- Base64 encoding with padding, as produced by `digest("base64")`. -/
def base64Encode : List Nat → String
  | [] => ""
  | [a] => String.mk [b64Char (a / 4), b64Char (a % 4 * 16), '=', '=']
  | [a, b] => String.mk [b64Char (a / 4), b64Char (a % 4 * 16 + b / 16), b64Char (b % 16 * 4), '=']
  | a :: b :: c :: rest =>
    String.mk [b64Char (a / 4), b64Char (a % 4 * 16 + b / 16),
               b64Char (b % 16 * 4 + c / 64), b64Char (c % 64)] ++ base64Encode rest

/-! ## Percent-encoding

`encodeURIComponent` (ECMA-262): leaves unescaped the characters
`A-Z a-z 0-9 - _ . ! ~ * ' ( )` and replaces every other character by the
`%XX` escapes (uppercase hex) of its UTF-8 bytes.  Encoders are written as
per-character functions returning `List Char`, flattened over the string's
characters, which is exactly what the JavaScript string pipeline does. -/

/-- Characters that `encodeURIComponent` leaves unescaped
(`uriAlpha`, `DecimalDigit` and `uriMark`). -/
def jsUriUnescaped (c : Char) : Bool :=
  (65 ≤ c.toNat && c.toNat ≤ 90) || (97 ≤ c.toNat && c.toNat ≤ 122) ||
  (48 ≤ c.toNat && c.toNat ≤ 57) ||
  c.toNat = 45 || c.toNat = 95 || c.toNat = 46 || c.toNat = 33 ||
  c.toNat = 126 || c.toNat = 42 || c.toNat = 39 || c.toNat = 40 || c.toNat = 41

/-- Percent escape of one byte, with uppercase hex digits. -/
def pctByteChars (b : Nat) : List Char := ['%', hexDigitUpper (b / 16), hexDigitUpper b]

/-- Per-character action of `encodeURIComponent`. -/
def encodeURIComponentChar (c : Char) : List Char :=
  if jsUriUnescaped c then [c] else ((utf8Bytes c).map pctByteChars).flatten

/-- The JavaScript builtin `encodeURIComponent`. -/
def encodeURIComponent (s : String) : String :=
  String.mk ((s.data.map encodeURIComponentChar).flatten)

/-- The five characters the regular expression `[!*'()]` in
`oauthEncode` (src/api/barcode.js lines 77-82) matches:
codes 33, 42, 39, 40, 41. -/
def isOAuthSpecialChar (c : Char) : Bool :=
  c.toNat = 33 || c.toNat = 42 || c.toNat = 39 || c.toNat = 40 || c.toNat = 41

/-- Per-character action of the `.replace(/[!*'()]/g, c => "%" +
c.charCodeAt(0).toString(16).toUpperCase())` pass: each matched character is
replaced by a percent sign and its char code in uppercase hex (all five
codes are two hex digits). -/
def replaceSpecialsChar (c : Char) : List Char :=
  if isOAuthSpecialChar c then ['%', hexDigitUpper (c.toNat / 16), hexDigitUpper c.toNat] else [c]

/-- The whole-string replacement pass of `oauthEncode`. -/
def replaceSpecials (s : String) : String :=
  String.mk ((s.data.map replaceSpecialsChar).flatten)

/-- Embeds `oauthEncode` (src/api/barcode.js lines 77-82):
`encodeURIComponent(String(str))` followed by the `[!*'()]` replacement. -/
def oauthEncode (s : String) : String := replaceSpecials (encodeURIComponent s)

/-- RFC 3986 unreserved characters: letters, digits, `-`, `.`, `_`, `~`. -/
def isRfc3986Unreserved (c : Char) : Bool :=
  (65 ≤ c.toNat && c.toNat ≤ 90) || (97 ≤ c.toNat && c.toNat ≤ 122) ||
  (48 ≤ c.toNat && c.toNat ≤ 57) ||
  c.toNat = 45 || c.toNat = 46 || c.toNat = 95 || c.toNat = 126

/-- Specification-side per-character encoder (claim C2's words): an
unreserved character stands for itself, every other character becomes the
uppercase `%XX` escapes of its UTF-8 bytes. -/
def oauthEncodeSpecChar (c : Char) : List Char :=
  if isRfc3986Unreserved c then [c] else ((utf8Bytes c).map pctByteChars).flatten

/-! ## JavaScript string helpers -/

/-- ASCII case conversion of one character, the action of the JavaScript
`toUpperCase` on ASCII strings (HTTP method strings are ASCII tokens). -/
def jsUpperChar (c : Char) : Char :=
  if 97 ≤ c.toNat && c.toNat ≤ 122 then Char.ofNat (c.toNat - 32) else c

/-- JavaScript `toUpperCase`, modelled on ASCII input. -/
def jsToUpperCase (s : String) : String := String.mk (s.data.map jsUpperChar)

/-- JavaScript `Array.prototype.join("&")`: the empty array joins to the
empty string, otherwise the elements are interleaved with ampersands. -/
def joinAmp : List String → String
  | [] => ""
  | [s] => s
  | s :: rest => s ++ "&" ++ joinAmp rest

/-! ## localeCompare model and sorting

`buildParameterString` sorts with `a.localeCompare(b)`.  With Node's default
locale this is the ICU root collation: primary weights compare punctuation
before digits before letters, letters case-insensitively; case is decided at
the tertiary level with lowercase first.  The model below is faithful for
the characters that can occur in percent-encoded strings (letters, digits,
`-` `.` `_` `~` `%`); all other characters fall back to codepoint order
among themselves above every modelled character. -/

/-- Primary collation weight of a character under the ICU root collation,
restricted to the percent-encoded alphabet. -/
def collPrimary (c : Char) : Nat :=
  let n := c.toNat
  if 97 ≤ n && n ≤ 122 then 1000 + (n - 97) * 4
  else if 65 ≤ n && n ≤ 90 then 1000 + (n - 65) * 4
  else if 48 ≤ n && n ≤ 57 then 500 + (n - 48)
  else if n = 45 then 10
  else if n = 46 then 20
  else if n = 37 then 30
  else if n = 95 then 40
  else if n = 126 then 50
  else 100000 + n

/-- Tertiary (case) collation weight: lowercase before uppercase. -/
def collTertiary (c : Char) : Nat :=
  if 65 ≤ c.toNat && c.toNat ≤ 90 then 2 else 1

/-- Lexicographic comparison of weight lists. -/
def listCmp : List Nat → List Nat → Ordering
  | [], [] => Ordering.eq
  | [], _ :: _ => Ordering.lt
  | _ :: _, [] => Ordering.gt
  | a :: as, b :: bs => if a < b then Ordering.lt else if b < a then Ordering.gt else listCmp as bs

/-- Model of `String.prototype.localeCompare` under Node's default (root)
locale: compare all primary weights first, then the case weights. -/
def localeCmp (a b : String) : Ordering :=
  match listCmp (a.data.map collPrimary) (b.data.map collPrimary) with
  | Ordering.eq => listCmp (a.data.map collTertiary) (b.data.map collTertiary)
  | o => o

/-- Codepoint (code-unit) comparison: the default JavaScript string order
used by `Array.prototype.sort()` without a comparator (faithful for
basic-plane strings, the only ones occurring here). -/
def codepointCmp (a b : String) : Ordering :=
  listCmp (a.data.map Char.toNat) (b.data.map Char.toNat)

/-- Ordered insertion: the element goes in front of the first entry it does
not compare greater than, which is the stable order JavaScript's
`Array.prototype.sort` produces for a consistent comparator. -/
def insertCmp (cmp : α → α → Ordering) (x : α) : List α → List α
  | [] => [x]
  | y :: ys =>
    match cmp x y with
    | Ordering.gt => y :: insertCmp cmp x ys
    | _ => x :: y :: ys

/-- Stable sort by a comparator (insertion sort). -/
def sortByCmp (cmp : α → α → Ordering) : List α → List α
  | [] => []
  | x :: xs => insertCmp cmp x (sortByCmp cmp xs)

/-! ## buildParameterString (src/api/barcode.js lines 84-93) -/

/-- Percent-encode every key and value with `oauthEncode`
(`Object.entries(params).map(([k, v]) => [oauthEncode(k), oauthEncode(v)])`).
A JavaScript object is a finite map with insertion-ordered string keys; it
is embedded as a key-value list (keys unique at every call site). -/
def encodedParams (params : List (String × String)) : List (String × String) :=
  params.map (fun kv => (oauthEncode kv.1, oauthEncode kv.2))

/-- The sort comparator of `buildParameterString`: value comparison when the
encoded keys are identical strings, key comparison otherwise, both via
`localeCompare`. -/
def paramPairCmp (a b : String × String) : Ordering :=
  if a.1 = b.1 then localeCmp a.2 b.2 else localeCmp a.1 b.1

/-- Embeds `buildParameterString`: encode, sort with the `localeCompare`
comparator, render each pair as `key=value` and join with ampersands. -/
def buildParameterString (params : List (String × String)) : String :=
  joinAmp ((sortByCmp paramPairCmp (encodedParams params)).map (fun kv => kv.1 ++ "=" ++ kv.2))

/-- Specification-side canonicalization, following the words of claim C3:
one `encodedKey=encodedValue` string per parameter, sorted in codepoint
order of the encoded key with ties broken by the encoded value in the same
order, joined with ampersands. -/
def specCanonicalParamString (params : List (String × String)) : String :=
  joinAmp ((sortByCmp
    (fun a b => match codepointCmp a.1 b.1 with
      | Ordering.eq => codepointCmp a.2 b.2
      | o => o)
    (encodedParams params)).map (fun kv => kv.1 ++ "=" ++ kv.2))

/-! ## buildSignature (src/api/barcode.js lines 95-100) -/

/-- Embeds `buildSignature(httpMethod, url, paramString, secret)`: the base
string is the uppercased method, an ampersand, the encoded url, an
ampersand and the encoded parameter string; the signing key is the encoded
secret followed by an ampersand; the result is the base64 HMAC-SHA1 digest
of the base string under that key. -/
def buildSignature (httpMethod url paramString secret : String) : String :=
  base64Encode (hmacSha1
    (strUtf8 (oauthEncode secret ++ "&"))
    (strUtf8 (jsToUpperCase httpMethod ++ "&" ++ oauthEncode url ++ "&" ++ oauthEncode paramString)))

/-- A JavaScript call of `buildSignature` with a fifth actual argument:
the function declares four parameters, so ECMAScript evaluates the extra
argument and then ignores it. -/
def buildSignatureWithTokenSecret (httpMethod url paramString secret tokenSecret : String) : String :=
  buildSignature httpMethod url paramString secret

/-! ## The barcode.js caller (src/api/barcode.js lines 102-141)

`callFatSecret` merges `{ method, format: "json", ...extraParams,
...oauthParams }` (insertion order; keys distinct at every call site),
canonicalizes with `buildParameterString`, signs with `buildSignature("GET",
API_URL, paramString, SECRET)` and issues a GET whose query string is the
canonical parameter string with `&oauth_signature=<encoded signature>`
appended.  The nonce and timestamp are generated per call; they enter the
embedding as arguments. -/

/-- The FatSecret endpoint. -/
def API_URL : String := "https://platform.fatsecret.com/rest/server.api"

/-- The merged parameter object of `callFatSecret` in src/api/barcode.js. -/
def callFatSecretAllParams (methodName : String) (extraParams : List (String × String))
    (KEY nonce timestamp : String) : List (String × String) :=
  [("method", methodName), ("format", "json")] ++ extraParams ++
  [("oauth_consumer_key", KEY), ("oauth_nonce", nonce),
   ("oauth_signature_method", "HMAC-SHA1"), ("oauth_timestamp", timestamp),
   ("oauth_version", "1.0")]

/-- The canonical parameter string `callFatSecret` signs. -/
def callFatSecretParamString (methodName : String) (extraParams : List (String × String))
    (KEY nonce timestamp : String) : String :=
  buildParameterString (callFatSecretAllParams methodName extraParams KEY nonce timestamp)

/-- The final URL `callFatSecret` fetches. -/
def callFatSecretUrl (methodName : String) (extraParams : List (String × String))
    (KEY SECRET nonce timestamp : String) : String :=
  API_URL ++ "?" ++ callFatSecretParamString methodName extraParams KEY nonce timestamp ++
  "&oauth_signature=" ++
  oauthEncode (buildSignature "GET" API_URL
    (callFatSecretParamString methodName extraParams KEY nonce timestamp) SECRET)

/-- The nonce of `callFatSecret` in src/api/barcode.js:
`crypto.randomBytes(16).toString("hex")`, the lowercase hex encoding of 16
bytes drawn from Node's cryptographic random source (supplied here as the
argument). -/
def callFatSecretNonce (randomBytes16 : List Nat) : String :=
  bytesToHexLower randomBytes16

/-! ## The part_001 caller (src/unnamed/part_001)

`generateOAuthSignature` canonicalizes with plain `encodeURIComponent` and
the default key sort; `fatSecretPost` then serializes the signed parameters
with `new URLSearchParams(signed).toString()`, the WHATWG
form-urlencoded serializer, whose escaping differs from
`encodeURIComponent` (space becomes `+`, `~` is escaped, `*` is not). -/

/-- Characters the form-urlencoded serializer leaves unescaped:
ASCII alphanumerics and `*` `-` `.` `_`. -/
def formUrlUnescaped (c : Char) : Bool :=
  (65 ≤ c.toNat && c.toNat ≤ 90) || (97 ≤ c.toNat && c.toNat ≤ 122) ||
  (48 ≤ c.toNat && c.toNat ≤ 57) ||
  c.toNat = 42 || c.toNat = 45 || c.toNat = 46 || c.toNat = 95

/-- Per-character action of the form-urlencoded serializer: space becomes a
plus sign, unescaped characters stand for themselves, everything else
becomes the uppercase percent escapes of its UTF-8 bytes. -/
def formUrlEncodeChar (c : Char) : List Char :=
  if c.toNat = 32 then ['+']
  else if formUrlUnescaped c then [c]
  else ((utf8Bytes c).map pctByteChars).flatten

/-- WHATWG `application/x-www-form-urlencoded` serialization of one string,
as performed by `URLSearchParams.toString`. -/
def formUrlEncode (s : String) : String :=
  String.mk ((s.data.map formUrlEncodeChar).flatten)

/-- Body serialization of `new URLSearchParams(signed).toString()`:
`key=value` pairs in insertion order, joined with ampersands. -/
def urlSearchParamsSerialize (params : List (String × String)) : String :=
  joinAmp (params.map (fun kv => formUrlEncode kv.1 ++ "=" ++ formUrlEncode kv.2))

/-- Value lookup in the embedded parameter object (`params[k]`; keys are
unique at every call site). -/
def lookupParam (params : List (String × String)) (k : String) : String :=
  match params with
  | [] => ""
  | kv :: rest => if kv.1 = k then kv.2 else lookupParam rest k

/-- The sorted, `encodeURIComponent`-encoded parameter string built inside
`generateOAuthSignature` (src/unnamed/part_001 lines 12-16):
`Object.keys(params).sort()` uses the default codepoint string order. -/
def generateOAuthSignatureParamString (params : List (String × String)) : String :=
  joinAmp ((sortByCmp codepointCmp (params.map Prod.fst)).map
    (fun k => encodeURIComponent k ++ "=" ++ encodeURIComponent (lookupParam params k)))

/-- Embeds `generateOAuthSignature(method, url, params, secret)` of
src/unnamed/part_001. -/
def generateOAuthSignature (method url : String) (params : List (String × String))
    (secret : String) : String :=
  base64Encode (hmacSha1
    (strUtf8 (encodeURIComponent secret ++ "&"))
    (strUtf8 (jsToUpperCase method ++ "&" ++ encodeURIComponent url ++ "&" ++
      encodeURIComponent (generateOAuthSignatureParamString params))))

/-- The oauth parameter object `buildSignedParams` assembles before signing
(src/unnamed/part_001 lines 28-37), with nonce and timestamp supplied. -/
def fatSecretOauthParams (params : List (String × String)) (KEY nonce timestamp : String) :
    List (String × String) :=
  params ++
  [("format", "json"), ("oauth_consumer_key", KEY),
   ("oauth_signature_method", "HMAC-SHA1"), ("oauth_timestamp", timestamp),
   ("oauth_nonce", nonce), ("oauth_version", "1.0")]

/-- Embeds `buildSignedParams`: the signature is computed over the oauth
parameter set and then appended to it. -/
def buildSignedParams (params : List (String × String)) (KEY SECRET nonce timestamp : String) :
    List (String × String) :=
  fatSecretOauthParams params KEY nonce timestamp ++
  [("oauth_signature",
    generateOAuthSignature "POST" API_URL (fatSecretOauthParams params KEY nonce timestamp) SECRET)]

/-- The POST body `fatSecretPost` transmits (src/unnamed/part_001 lines
44-54). -/
def fatSecretPostBody (params : List (String × String)) (KEY SECRET nonce timestamp : String) :
    String :=
  urlSearchParamsSerialize (buildSignedParams params KEY SECRET nonce timestamp)

/-! ## Rate limiter and handler gate (src/api/barcode.js lines 19-72 and
146-189) -/

/-- One rate bucket: request count and window end (milliseconds since
epoch, as returned by `Date.now()`). -/
structure RateBucket where
  count : Nat
  resetAt : Nat
deriving DecidableEq, Repr

/-- Result of `checkRateLimit`. -/
structure RateCheck where
  allowed : Bool
  remaining : Nat
  resetSeconds : Nat
  limit : Nat
deriving DecidableEq, Repr

/-- Lookup in the `rateBuckets` map (`Map.get`). -/
def lookupBucket : List (String × RateBucket) → String → Option RateBucket
  | [], _ => none
  | kv :: rest, ip => if kv.1 = ip then some kv.2 else lookupBucket rest ip

/-- Update in the `rateBuckets` map (`Map.set`: replace in place, append if
absent). -/
def setBucket : List (String × RateBucket) → String → RateBucket → List (String × RateBucket)
  | [], ip, b => [(ip, b)]
  | kv :: rest, ip, b => if kv.1 = ip then (ip, b) :: rest else kv :: setBucket rest ip b

/-- Embeds `checkRateLimit(ip)` (src/api/barcode.js lines 42-62) as a pure
step on the bucket map, with `Date.now()` supplied as `now`: a missing or
expired bucket is replaced by a fresh one, the count is incremented, and
the request is allowed while the incremented count stays within 30. -/
def checkRateLimit (buckets : List (String × RateBucket)) (ip : String) (now : Nat) :
    RateCheck × List (String × RateBucket) :=
  let bucket0 : RateBucket :=
    match lookupBucket buckets ip with
    | some b => if b.resetAt ≤ now then ⟨0, now + 60000⟩ else b
    | none => ⟨0, now + 60000⟩
  let bucket : RateBucket := ⟨bucket0.count + 1, bucket0.resetAt⟩
  (⟨decide (bucket.count ≤ 30), 30 - bucket.count, (bucket.resetAt - now + 999) / 1000, 30⟩,
   setBucket buckets ip bucket)

/-- Embeds `cleanupRateBuckets` (src/api/barcode.js lines 65-72): buckets
whose window ended a full window ago are dropped. -/
def cleanupRateBuckets (buckets : List (String × RateBucket)) (now : Nat) :
    List (String × RateBucket) :=
  buckets.filter (fun kv => decide (now < kv.2.resetAt + 60000))

/-- The request data `getClientIp` and the handler inspect.  Header values
are `Option String` (`none` when the header is absent); the
`typeof xff === "string"` test in the source corresponds to the header
being present. -/
structure ApiRequest where
  method : String
  xForwardedFor : Option String
  xRealIp : Option String
  connectionRemoteAddress : Option String
  socketRemoteAddress : Option String
  queryCode : Option String

/-- JavaScript whitespace characters removed by `String.prototype.trim`
(the ASCII subset: space, tab, line feed, carriage return, vertical tab and
form feed; the header values involved are ASCII). -/
def isJsWhitespace (c : Char) : Bool :=
  c.toNat = 32 || c.toNat = 9 || c.toNat = 10 || c.toNat = 13 || c.toNat = 11 || c.toNat = 12

/-- JavaScript `String.prototype.trim`: strip whitespace from both ends. -/
def jsTrim (s : String) : String :=
  String.mk (((s.data.dropWhile isJsWhitespace).reverse.dropWhile isJsWhitespace).reverse)

/-- JavaScript `String.prototype.split(",")`: the list of comma-free
segments; splitting the empty string gives one empty segment. -/
def jsSplitCommaAux : List Char → List Char → List String
  | [], acc => [String.mk acc.reverse]
  | c :: rest, acc =>
    if c.toNat = 44 then String.mk acc.reverse :: jsSplitCommaAux rest []
    else jsSplitCommaAux rest (c :: acc)

/-- JavaScript `xff.split(",")`. -/
def jsSplitComma (s : String) : List String := jsSplitCommaAux s.data []

/-- JavaScript `a || b` over possibly-absent strings: an absent or empty
left operand falls through. -/
def jsOrElse (v : Option String) (w : String) : String :=
  match v with
  | some s => if s = "" then w else s
  | none => w

/-- Embeds `getClientIp(req)` (src/api/barcode.js lines 27-40): a non-empty
`x-forwarded-for` header yields its first comma-separated entry, trimmed;
otherwise the fallbacks apply. -/
def getClientIp (req : ApiRequest) : String :=
  match req.xForwardedFor with
  | some xff =>
    if xff ≠ "" then jsTrim ((jsSplitComma xff).headD "")
    else jsOrElse req.xRealIp
      (jsOrElse req.connectionRemoteAddress (jsOrElse req.socketRemoteAddress "unknown"))
  | none =>
    jsOrElse req.xRealIp
      (jsOrElse req.connectionRemoteAddress (jsOrElse req.socketRemoteAddress "unknown"))

/-- The early decision chain of the handler (src/api/barcode.js lines
146-189): cleanup, OPTIONS short-circuit, GET-only check, rate limit with
429 on rejection, then the `?code=` presence check (an empty string is
falsy in JavaScript).  `none` means the handler proceeds to the upstream
calls; `some s` is the status of the early response. -/
def handlerEarlyStatus (req : ApiRequest) (buckets : List (String × RateBucket)) (now : Nat) :
    Option Nat × List (String × RateBucket) :=
  let cleaned := cleanupRateBuckets buckets now
  if req.method = "OPTIONS" then (some 200, cleaned)
  else if req.method ≠ "GET" then (some 405, cleaned)
  else
    let rc := checkRateLimit cleaned (getClientIp req) now
    if rc.1.allowed = false then (some 429, rc.2)
    else
      match req.queryCode with
      | some c => if c = "" then (some 400, rc.2) else (none, rc.2)
      | none => (some 400, rc.2)

/-- Count the claim C10 attributes to the bucket before the call: the
bucket's count when the call falls inside the bucket's current window, and
zero when the bucket is absent or its window has ended. -/
def priorWindowCount (buckets : List (String × RateBucket)) (ip : String) (now : Nat) : Nat :=
  match lookupBucket buckets ip with
  | some b => if b.resetAt ≤ now then 0 else b.count
  | none => 0

/-- Window end after the call: a fresh window starts at the first call at
or after the previous `resetAt` (or when no bucket exists). -/
def newResetAt (buckets : List (String × RateBucket)) (ip : String) (now : Nat) : Nat :=
  match lookupBucket buckets ip with
  | some b => if b.resetAt ≤ now then now + 60000 else b.resetAt
  | none => now + 60000

/-- Run a sequence of calls for one client against an initially empty
bucket map, collecting each call's `RateCheck`. -/
def runCallsAux (ip : String) (buckets : List (String × RateBucket)) : List Nat → List RateCheck
  | [] => []
  | t :: ts =>
    (checkRateLimit buckets ip t).1 :: runCallsAux ip (checkRateLimit buckets ip t).2 ts

/-- Results of a call sequence from the empty bucket map. -/
def runCalls (ip : String) (times : List Nat) : List RateCheck := runCallsAux ip [] times

/-! ## Helper lemmas -/

/-- Char.ofNat is left-inverted by toNat below the surrogate range. -/
theorem toNat_ofNat_valid (n : Nat) (h : n < 55296) : (Char.ofNat n).toNat = n := by
  have hv : n.isValidChar := Or.inl h
  simp only [Char.ofNat, hv, dif_pos]
  simp only [Char.ofNatAux, Char.toNat, UInt32.toNat, UInt32.toBitVec, BitVec.toNat_ofNatLt]

/-- ASCII uppercasing is idempotent on characters. -/
theorem jsUpperChar_idem (c : Char) : jsUpperChar (jsUpperChar c) = jsUpperChar c := by
  by_cases h : 97 ≤ c.toNat ∧ c.toNat ≤ 122
  · have e1 : jsUpperChar c = Char.ofNat (c.toNat - 32) := by
      unfold jsUpperChar
      rw [if_pos (by simp [h.1, h.2])]
    have h2 : (Char.ofNat (c.toNat - 32)).toNat = c.toNat - 32 :=
      toNat_ofNat_valid _ (by omega)
    rw [e1]
    unfold jsUpperChar
    rw [if_neg (by simp [h2]; omega)]
  · have e1 : jsUpperChar c = c := by
      unfold jsUpperChar
      rw [if_neg (by simp; omega)]
    rw [e1]
    exact e1

/-- ASCII uppercasing is idempotent on strings. -/
theorem jsToUpperCase_idem (s : String) : jsToUpperCase (jsToUpperCase s) = jsToUpperCase s := by
  simp [jsToUpperCase, List.map_map, Function.comp_def, jsUpperChar_idem]

/-! ## Claims -/

/-- C1: for every HTTP method string, base URL, (canonical) parameter
string and consumer secret, `buildSignature` returns the base64 encoding of
the HMAC-SHA1 digest whose key is the percent-encoded consumer secret, a
literal ampersand, and the percent-encoded token secret — the token secret
being empty in this two-legged flow, so the key always ends in an
ampersand — computed over the base string formed from the uppercased
method, an ampersand, the percent-encoded base URL, an ampersand, and the
percent-encoded parameter string (encoded once more as one unit). -/
theorem buildSignature_spec_c1 (method url paramString secret : String) :
    buildSignature method url paramString secret
      = base64Encode (hmacSha1
          (strUtf8 (oauthEncode secret ++ "&" ++ oauthEncode ""))
          (strUtf8 (jsToUpperCase method ++ "&" ++ oauthEncode url ++ "&" ++
            oauthEncode paramString))) := by
  have h0 : oauthEncode "" = "" := rfl
  unfold buildSignature
  rw [h0, String.append_empty]

/-- Per-byte percent escapes contain no character of the `[!*'()]` class. -/
theorem pct_chars_not_special {d : Char} {b : Nat} (hd : d ∈ pctByteChars b) :
    isOAuthSpecialChar d = false := by
  have h16 : ∀ m, m < 16 → isOAuthSpecialChar (hexDigitTable m) = false := by decide
  simp only [pctByteChars, List.mem_cons, List.not_mem_nil, or_false] at hd
  rcases hd with h | h | h
  · subst h; decide
  · subst h
    simp only [hexDigitUpper]
    exact h16 _ (Nat.mod_lt _ (by omega))
  · subst h
    simp only [hexDigitUpper]
    exact h16 _ (Nat.mod_lt _ (by omega))

/-- Mapping a function that fixes every element (as a singleton) over a list
and flattening gives the list back. -/
theorem flatten_map_singleton (g : Char → List Char) :
    ∀ (L : List Char), (∀ d ∈ L, g d = [d]) → (L.map g).flatten = L := by
  intro L h
  induction L with
  | nil => rfl
  | cons x xs ih =>
    simp only [List.map_cons, List.flatten_cons, h x (by simp)]
    simp only [List.singleton_append, List.cons_inj_right]
    exact ih (fun d hd => h d (by simp [hd]))

/-- The replacement pass of `oauthEncode` composed with the per-character
action of `encodeURIComponent` realizes exactly the specification encoder:
RFC 3986 unreserved characters survive, everything else becomes the
uppercase percent escapes of its UTF-8 bytes. -/
theorem encChar_replace (c : Char) :
    ((encodeURIComponentChar c).map replaceSpecialsChar).flatten = oauthEncodeSpecChar c := by
  by_cases h1 : isRfc3986Unreserved c = true
  · have h1p : (65 ≤ c.toNat ∧ c.toNat ≤ 90) ∨ (97 ≤ c.toNat ∧ c.toNat ≤ 122) ∨
        (48 ≤ c.toNat ∧ c.toNat ≤ 57) ∨ c.toNat = 45 ∨ c.toNat = 46 ∨ c.toNat = 95 ∨
        c.toNat = 126 := by
      simpa [isRfc3986Unreserved, and_assoc, or_assoc] using h1
    have hj : jsUriUnescaped c = true := by
      simp only [jsUriUnescaped]; simp; omega
    have hs : isOAuthSpecialChar c = false := by
      simp only [isOAuthSpecialChar]; simp; omega
    simp [encodeURIComponentChar, hj, oauthEncodeSpecChar, h1, replaceSpecialsChar, hs]
  · by_cases h2 : isOAuthSpecialChar c = true
    · have h2p : c.toNat = 33 ∨ c.toNat = 42 ∨ c.toNat = 39 ∨ c.toNat = 40 ∨ c.toNat = 41 := by
        simpa [isOAuthSpecialChar, or_assoc] using h2
      have hj : jsUriUnescaped c = true := by
        simp only [jsUriUnescaped]; simp; omega
      have hlt : c.toNat < 128 := by omega
      simp [encodeURIComponentChar, hj, oauthEncodeSpecChar, h1, replaceSpecialsChar, h2,
            utf8Bytes, hlt, pctByteChars]
    · have hj : jsUriUnescaped c = false := by
        have h1p := h1
        have h2p := h2
        simp only [isRfc3986Unreserved] at h1p
        simp only [isOAuthSpecialChar] at h2p
        simp at h1p h2p
        simp only [jsUriUnescaped]; simp; omega
      simp only [encodeURIComponentChar, hj, if_false, Bool.false_eq_true,
        oauthEncodeSpecChar, h1]
      apply flatten_map_singleton
      intro d hd
      obtain ⟨l, hl, hdl⟩ := List.mem_flatten.mp hd
      obtain ⟨b, _, rfl⟩ := List.mem_map.mp hl
      simp [replaceSpecialsChar, pct_chars_not_special hdl]

/-- The whole-string form of `encChar_replace`. -/
theorem oauthEncode_chars (s : String) :
    oauthEncode s = String.mk ((s.data.map oauthEncodeSpecChar).flatten) := by
  have key : ∀ (L : List Char),
      (((L.map encodeURIComponentChar).flatten).map replaceSpecialsChar).flatten
        = (L.map oauthEncodeSpecChar).flatten := by
    intro L
    induction L with
    | nil => rfl
    | cons x xs ih =>
      simp only [List.map_cons, List.flatten_cons, List.map_append, List.flatten_append, ih,
        encChar_replace x]
  exact congrArg String.mk (key s.data)

/-- No character of the `[!*'()]` class survives `oauthEncode`. -/
theorem oauthEncode_not_special {d : Char} (s : String) (hd : d ∈ (oauthEncode s).data) :
    isOAuthSpecialChar d = false := by
  rw [oauthEncode_chars] at hd
  obtain ⟨l, hl, hdl⟩ := List.mem_flatten.mp hd
  obtain ⟨c, _, rfl⟩ := List.mem_map.mp hl
  by_cases h1 : isRfc3986Unreserved c = true
  · simp only [oauthEncodeSpecChar, h1, if_true, List.mem_singleton] at hdl
    subst hdl
    have h1p : (65 ≤ d.toNat ∧ d.toNat ≤ 90) ∨ (97 ≤ d.toNat ∧ d.toNat ≤ 122) ∨
        (48 ≤ d.toNat ∧ d.toNat ≤ 57) ∨ d.toNat = 45 ∨ d.toNat = 46 ∨ d.toNat = 95 ∨
        d.toNat = 126 := by
      simpa [isRfc3986Unreserved, and_assoc, or_assoc] using h1
    simp only [isOAuthSpecialChar]; simp; omega
  · simp only [oauthEncodeSpecChar, h1, if_false, Bool.false_eq_true] at hdl
    obtain ⟨l2, hl2, hdl2⟩ := List.mem_flatten.mp hdl
    obtain ⟨b, _, rfl⟩ := List.mem_map.mp hl2
    exact pct_chars_not_special hdl2

/-- Membership through ordered insertion. -/
theorem mem_insertCmp {cmp : α → α → Ordering} {x y : α} :
    ∀ {l : List α}, y ∈ insertCmp cmp x l → y = x ∨ y ∈ l := by
  intro l
  induction l with
  | nil => intro h; simpa [insertCmp] using h
  | cons z zs ih =>
    intro h
    unfold insertCmp at h
    split at h
    · rcases List.mem_cons.mp h with h | h
      · exact Or.inr (by simp [h])
      · rcases ih h with h | h
        · exact Or.inl h
        · exact Or.inr (by simp [h])
    · rcases List.mem_cons.mp h with h | h
      · exact Or.inl h
      · exact Or.inr h

/-- Membership through the insertion sort. -/
theorem mem_sortByCmp {cmp : α → α → Ordering} {y : α} :
    ∀ {l : List α}, y ∈ sortByCmp cmp l → y ∈ l := by
  intro l
  induction l with
  | nil => intro h; simpa [sortByCmp] using h
  | cons x xs ih =>
    intro h
    unfold sortByCmp at h
    rcases mem_insertCmp h with rfl | h2
    · simp
    · simp [ih h2]

/-- Characters of a joined list come from the elements or are ampersands. -/
theorem mem_joinAmp {d : Char} :
    ∀ {L : List String}, d ∈ (joinAmp L).data → (∃ s ∈ L, d ∈ s.data) ∨ d = '&' := by
  intro L
  induction L with
  | nil => intro h; simp [joinAmp] at h
  | cons x xs ih =>
    cases xs with
    | nil =>
      intro h
      exact Or.inl ⟨x, by simp, by simpa [joinAmp] using h⟩
    | cons y ys =>
      intro h
      have hx : joinAmp (x :: y :: ys) = x ++ "&" ++ joinAmp (y :: ys) := rfl
      rw [hx, String.data_append, String.data_append] at h
      rcases List.mem_append.mp h with h | h
      · rcases List.mem_append.mp h with h | h
        · exact Or.inl ⟨x, by simp, h⟩
        · right
          simpa using h
      · rcases ih h with ⟨s, hs, hds⟩ | h
        · exact Or.inl ⟨s, by simp [hs], hds⟩
        · exact Or.inr h

/-- C2: `oauthEncode` leaves exactly the RFC 3986 unreserved characters
(letters, digits, `-` `.` `_` `~`) unescaped and replaces every other
character by the uppercase `%XX` escapes of its UTF-8 bytes — in particular
the five characters `!` `*` `'` `(` `)` that `encodeURIComponent` would
leave raw; consequently a canonical parameter string never contains any of
those five characters raw, and one built from a value consisting of the
five characters contains exactly their uppercase escapes. -/
theorem oauthEncode_rfc3986_c2 (s : String) (params : List (String × String)) :
    oauthEncode s = String.mk ((s.data.map oauthEncodeSpecChar).flatten)
    ∧ ((buildParameterString params).data.all (fun c => !isOAuthSpecialChar c)) = true
    ∧ buildParameterString [("k", String.mk ([33, 42, 39, 40, 41].map Char.ofNat))]
        = "k=%21%2A%27%28%29" := by
  refine ⟨oauthEncode_chars s, ?_, by decide⟩
  rw [List.all_eq_true]
  intro d hd
  suffices h : isOAuthSpecialChar d = false by simp [h]
  unfold buildParameterString at hd
  rcases mem_joinAmp hd with ⟨t, ht, hdt⟩ | h38
  · obtain ⟨kv, hkv, rfl⟩ := List.mem_map.mp ht
    have hkv2 := mem_sortByCmp hkv
    obtain ⟨kv0, _, rfl⟩ := List.mem_map.mp hkv2
    rw [String.data_append, String.data_append] at hdt
    rcases List.mem_append.mp hdt with h | h
    · rcases List.mem_append.mp h with h | h
      · exact oauthEncode_not_special _ h
      · have he : d = '=' := by simpa using h
        rw [he]; decide
    · exact oauthEncode_not_special _ h
  · rw [h38]; decide

/-- C3 (code bug evidence): `buildParameterString` sorts with
`localeCompare`, the locale-aware ICU root collation, under which the
encoded key `a` precedes `B`; codepoint order — what the claim states, what
RFC 5849 requires, and what the sibling revisions' plain `sort()`
implements — puts `B=2` first.  The two canonicalizations disagree on the
concrete parameter object with keys `B` and `a`. -/
theorem buildParameterString_localeCompare_c3 :
    buildParameterString [("B", "2"), ("a", "1")] = "a=1&B=2"
    ∧ specCanonicalParamString [("B", "2"), ("a", "1")] = "B=2&a=1"
    ∧ buildParameterString [("B", "2"), ("a", "1")]
        ≠ specCanonicalParamString [("B", "2"), ("a", "1")] := by
  refine ⟨by decide, by decide, by decide⟩

/-- C4 counterexample: calling the signer with an empty consumer secret is
not rejected; `buildSignature` returns precisely the signature computed
against the HMAC key consisting of the single ampersand character,
contradicting the claim that this case fails with an InvalidInput error. -/
theorem buildSignature_emptySecret_counterexample_c4 :
    buildSignature "GET" "https://example.com/api" "a=1" ""
      = base64Encode (hmacSha1 (strUtf8 "&")
          (strUtf8 "GET&https%3A%2F%2Fexample.com%2Fapi&a%3D1")) := by
  have h1 : (oauthEncode "" ++ "&" : String) = "&" := by decide
  have h2 : jsToUpperCase "GET" ++ "&" ++ oauthEncode "https://example.com/api" ++ "&" ++
      oauthEncode "a=1" = "GET&https%3A%2F%2Fexample.com%2Fapi&a%3D1" := by decide
  unfold buildSignature
  rw [h1, h2]

/-- C4 (amended): `buildSignature` performs no input validation and never
fails: every method string is accepted and uppercased, and an empty
consumer secret is not rejected — the function returns the signature
computed against the signing key consisting of a single ampersand. -/
theorem buildSignature_no_validation_c4 (method url paramString : String) :
    buildSignature method url paramString ""
      = base64Encode (hmacSha1 (strUtf8 "&")
          (strUtf8 (jsToUpperCase method ++ "&" ++ oauthEncode url ++ "&" ++
            oauthEncode paramString))) := by
  have h : (oauthEncode "" ++ "&" : String) = "&" := by decide
  unfold buildSignature
  rw [h]

/-- C5 (code bug evidence): in src/unnamed/part_001 the canonical string
signed by `generateOAuthSignature` encodes the parameter value `a b~`
(space and tilde) with `encodeURIComponent` as `a%20b~`, while the
transmitted `URLSearchParams` body carries `a+b%7E` — same keys, same
values, but a different percent-encoding, contradicting the byte-identical
invariant of the claim. -/
theorem fatSecretPost_encoding_mismatch_c5 :
    generateOAuthSignatureParamString
        (fatSecretOauthParams
          [("method", "food.find_id_for_barcode"),
           ("barcode", String.mk ([97, 32, 98, 126].map Char.ofNat))]
          "demokey" "0123456789abcdef" "1700000000")
      = "barcode=a%20b~&format=json&method=food.find_id_for_barcode&oauth_consumer_key=demokey&oauth_nonce=0123456789abcdef&oauth_signature_method=HMAC-SHA1&oauth_timestamp=1700000000&oauth_version=1.0"
    ∧ urlSearchParamsSerialize
        (fatSecretOauthParams
          [("method", "food.find_id_for_barcode"),
           ("barcode", String.mk ([97, 32, 98, 126].map Char.ofNat))]
          "demokey" "0123456789abcdef" "1700000000")
      = "method=food.find_id_for_barcode&barcode=a+b%7E&format=json&oauth_consumer_key=demokey&oauth_signature_method=HMAC-SHA1&oauth_timestamp=1700000000&oauth_nonce=0123456789abcdef&oauth_version=1.0"
    ∧ encodeURIComponent (String.mk ([97, 32, 98, 126].map Char.ofNat))
        ≠ formUrlEncode (String.mk ([97, 32, 98, 126].map Char.ofNat)) := by
  refine ⟨by decide, by decide, by decide⟩

/-- C6: signing is a deterministic, pure function of its four arguments:
two invocations of `buildSignature` on equal method, URL, parameter string
and secret return the same signature.  Purity holds by construction of the
embedding: the source function reads nothing but its arguments and performs
no side effect, so it embeds as a plain function. -/
theorem buildSignature_deterministic_c6 (m1 m2 u1 u2 p1 p2 s1 s2 : String)
    (hm : m1 = m2) (hu : u1 = u2) (hp : p1 = p2) (hs : s1 = s2) :
    buildSignature m1 u1 p1 s1 = buildSignature m2 u2 p2 s2 := by
  subst hm; subst hu; subst hp; subst hs; rfl

/-- Witness for C6 at a concrete input. -/
theorem buildSignature_deterministic_witness_c6 :
    buildSignature "GET" "https://example.com" "a=1" "s"
      = buildSignature "GET" "https://example.com" "a=1" "s" :=
  buildSignature_deterministic_c6 _ _ _ _ _ _ _ _ rfl rfl rfl rfl

/-- C7: the signer declares no token-secret parameter, so a JavaScript call
that passes an explicit empty-string token secret as a fifth argument
evaluates and ignores it and returns exactly the signature of the
four-argument call — omitting the token secret and passing the empty
string coincide for every method, base URL, parameter string and consumer
secret (the signing key always uses the empty token secret, see C1). -/
theorem buildSignature_tokenSecret_default_c7 (method url paramString secret : String) :
    buildSignatureWithTokenSecret method url paramString secret ""
      = buildSignature method url paramString secret := rfl

/-- C9: the signer normalizes the method case itself and performs no verb
validation: every method string — also one that is neither GET nor POST —
is accepted (the embedding is a total function), and signing with `m` gives
the same signature as signing with the uppercased `m`. -/
theorem buildSignature_method_case_c9 (method url paramString secret : String) :
    buildSignature method url paramString secret
      = buildSignature (jsToUpperCase method) url paramString secret := by
  unfold buildSignature
  rw [jsToUpperCase_idem]

/-- Prepending to a non-empty list does not change the last element. -/
theorem getLast?_cons_ne {a : α} {l : List α} (h : l ≠ []) :
    (a :: l).getLast? = l.getLast? := by
  cases l with
  | nil => exact absurd rfl h
  | cons b bs => exact List.getLast?_cons_cons

/-- Updating the bucket map stores the bucket under the key. -/
theorem lookupBucket_setBucket (buckets : List (String × RateBucket)) (ip : String)
    (b : RateBucket) : lookupBucket (setBucket buckets ip b) ip = some b := by
  induction buckets with
  | nil => simp [setBucket, lookupBucket]
  | cons kv rest ih =>
    unfold setBucket
    by_cases h : kv.1 = ip
    · simp [h, lookupBucket]
    · simp [h, lookupBucket, ih]

/-- One call against a live singleton bucket: the count increments, the
window is kept, and the call is allowed while the new count is within 30. -/
theorem checkRateLimit_live (ip : String) (c0 r t : Nat) (ht : t < r) :
    checkRateLimit [(ip, ⟨c0, r⟩)] ip t
      = (⟨decide (c0 + 1 ≤ 30), 30 - (c0 + 1), (r - t + 999) / 1000, 30⟩,
         [(ip, ⟨c0 + 1, r⟩)]) := by
  have hr : ¬ (r ≤ t) := by omega
  simp [checkRateLimit, lookupBucket, setBucket, hr]

/-- The last of a sequence of calls inside one window, starting from a live
bucket with count `c0`, is allowed exactly when `c0` plus the number of
calls stays within 30. -/
theorem runCallsAux_window (ip : String) (r : Nat) :
    ∀ (ts : List Nat) (c0 : Nat), ts ≠ [] → (∀ t ∈ ts, t < r) →
      (runCallsAux ip [(ip, ⟨c0, r⟩)] ts).getLast?.map RateCheck.allowed
        = some (decide (c0 + ts.length ≤ 30)) := by
  intro ts
  induction ts with
  | nil => intro c0 h _; exact absurd rfl h
  | cons t ts ih =>
    intro c0 _ hw
    have ht : t < r := hw t (by simp)
    cases ts with
    | nil =>
      simp [runCallsAux, checkRateLimit_live ip c0 r t ht]
    | cons t2 ts2 =>
      have step : runCallsAux ip [(ip, ⟨c0, r⟩)] (t :: t2 :: ts2)
          = (checkRateLimit [(ip, ⟨c0, r⟩)] ip t).1 ::
            runCallsAux ip [(ip, ⟨c0 + 1, r⟩)] (t2 :: ts2) := by
        rw [runCallsAux, checkRateLimit_live ip c0 r t ht]
      rw [step]
      have htail : runCallsAux ip [(ip, ⟨c0 + 1, r⟩)] (t2 :: ts2) ≠ [] := by
        rw [runCallsAux]; simp
      rw [getLast?_cons_ne htail]
      have := ih (c0 + 1) (by simp) (fun u hu => hw u (by simp [hu]))
      rw [this]
      congr 1
      simp [List.length_cons]
      congr 1
      omega

/-- C10: for every client key, `checkRateLimit` admits a request exactly
when the post-increment count inside the current 60-second window is at
most 30, reports `remaining = max(0, 30 - count)`, and stores the
incremented count with a window that restarts on the first call at or
after `resetAt`; in a fresh window the 31st and later calls are rejected,
a rejected GET request receives the early 429 response, and the rate key
of a request with a non-empty `x-forwarded-for` header is the header's
first comma-separated entry (whitespace-trimmed, as HTTP list members
are). -/
theorem checkRateLimit_spec_c10 (buckets : List (String × RateBucket)) (ip : String)
    (now : Nat) (req : ApiRequest) (xff : String) (t0 : Nat) (ts : List Nat) :
    ((checkRateLimit buckets ip now).1.allowed
        = decide (priorWindowCount buckets ip now + 1 ≤ 30))
    ∧ (((checkRateLimit buckets ip now).1.remaining : Int)
        = max 0 (30 - ((priorWindowCount buckets ip now : Int) + 1)))
    ∧ (lookupBucket (checkRateLimit buckets ip now).2 ip
        = some ⟨priorWindowCount buckets ip now + 1, newResetAt buckets ip now⟩)
    ∧ ((∀ t ∈ ts, t < t0 + 60000) → ts ≠ [] →
        ((runCalls ip (t0 :: ts)).getLast?).map RateCheck.allowed
          = some (decide (ts.length + 1 ≤ 30)))
    ∧ (req.method = "GET" →
        (checkRateLimit (cleanupRateBuckets buckets now) (getClientIp req) now).1.allowed
          = false →
        (handlerEarlyStatus req buckets now).1 = some 429)
    ∧ (req.xForwardedFor = some xff → xff ≠ "" →
        getClientIp req = jsTrim ((jsSplitComma xff).headD "")) := by
  refine ⟨?_, ?_, ?_, ?_, ?_, ?_⟩
  · unfold checkRateLimit priorWindowCount
    rcases h : lookupBucket buckets ip with _ | b
    · simp
    · by_cases hr : b.resetAt ≤ now <;> simp [hr]
  · unfold checkRateLimit priorWindowCount
    rcases h : lookupBucket buckets ip with _ | b
    · simp
    · by_cases hr : b.resetAt ≤ now <;> simp [hr] <;> omega
  · unfold checkRateLimit priorWindowCount newResetAt
    rcases h : lookupBucket buckets ip with _ | b
    · simp [lookupBucket_setBucket]
    · by_cases hr : b.resetAt ≤ now <;> simp [hr, lookupBucket_setBucket]
  · intro hw hne
    have first : checkRateLimit [] ip t0
        = (⟨decide (0 + 1 ≤ 30), 30 - (0 + 1), (t0 + 60000 - t0 + 999) / 1000, 30⟩,
           [(ip, ⟨0 + 1, t0 + 60000⟩)]) := by
      simp [checkRateLimit, lookupBucket, setBucket]
    have step : runCalls ip (t0 :: ts)
        = (checkRateLimit [] ip t0).1 :: runCallsAux ip [(ip, ⟨1, t0 + 60000⟩)] ts := by
      unfold runCalls
      rw [runCallsAux, first]
    rw [step]
    cases ts with
    | nil => exact absurd rfl hne
    | cons t2 ts2 =>
      have htail : runCallsAux ip [(ip, ⟨1, t0 + 60000⟩)] (t2 :: ts2) ≠ [] := by
        rw [runCallsAux]; simp
      rw [getLast?_cons_ne htail]
      have := runCallsAux_window ip (t0 + 60000) (t2 :: ts2) 1 (by simp) hw
      rw [this]
      congr 1
      simp [List.length_cons]
      congr 1
      omega
  · intro hm hall
    unfold handlerEarlyStatus
    rw [hm]
    simp [hall]
  · intro hx hne
    unfold getClientIp
    rw [hx]
    simp [hne]

/-- Witness for C10: a bucket at count 30 inside its window rejects the
next call with one remaining slot already gone; the stored bucket carries
count 31; the 31st call of a fresh window is rejected; the rejected GET
request receives status 429; and the forwarded-for header ` 1.2.3.4 ,
10.0.0.1` yields the key `1.2.3.4`. -/
theorem checkRateLimit_spec_witness_c10 :
    ((checkRateLimit [("1.2.3.4", ⟨30, 70000⟩)] "1.2.3.4" 10000).1.allowed
        = decide (priorWindowCount [("1.2.3.4", ⟨30, 70000⟩)] "1.2.3.4" 10000 + 1 ≤ 30))
    ∧ (((checkRateLimit [("1.2.3.4", ⟨30, 70000⟩)] "1.2.3.4" 10000).1.remaining : Int)
        = max 0 (30 - ((priorWindowCount [("1.2.3.4", ⟨30, 70000⟩)] "1.2.3.4" 10000 : Int) + 1)))
    ∧ (lookupBucket (checkRateLimit [("1.2.3.4", ⟨30, 70000⟩)] "1.2.3.4" 10000).2 "1.2.3.4"
        = some ⟨priorWindowCount [("1.2.3.4", ⟨30, 70000⟩)] "1.2.3.4" 10000 + 1,
                newResetAt [("1.2.3.4", ⟨30, 70000⟩)] "1.2.3.4" 10000⟩)
    ∧ (((runCalls "1.2.3.4" (0 :: List.replicate 30 5)).getLast?).map RateCheck.allowed
        = some (decide ((List.replicate 30 5).length + 1 ≤ 30)))
    ∧ ((handlerEarlyStatus
          ⟨"GET", some " 1.2.3.4 , 10.0.0.1", none, none, none, some "0123"⟩
          [("1.2.3.4", ⟨30, 70000⟩)] 10000).1 = some 429)
    ∧ (getClientIp ⟨"GET", some " 1.2.3.4 , 10.0.0.1", none, none, none, some "0123"⟩
        = jsTrim ((jsSplitComma " 1.2.3.4 , 10.0.0.1").headD "")) := by
  obtain ⟨h1, h2, h3, h4, h5, h6⟩ :=
    checkRateLimit_spec_c10 [("1.2.3.4", ⟨30, 70000⟩)] "1.2.3.4" 10000
      ⟨"GET", some " 1.2.3.4 , 10.0.0.1", none, none, none, some "0123"⟩
      " 1.2.3.4 , 10.0.0.1" 0 (List.replicate 30 5)
  exact ⟨h1, h2, h3, h4 (by decide) (by decide), h5 rfl (by decide), h6 rfl (by decide)⟩

end FatSecretProxy
